import Mathlib

/-
Verification development for the FRL Chrome extension (record/replay engine).

The TypeScript sources are shallowly embedded:
  * pure string / list manipulation is translated function-by-function;
  * DOM elements are modelled as a rose tree of element/text nodes, and an
    element in context is a node plus its chain of ancestors (a zipper);
  * browser / debugging-protocol round trips are abstracted as environments
    holding each query's outcome, and polling loops are abstracted to the
    eventual outcome they poll for (real time is not representable);
  * JavaScript strings are Lean Strings, JS numbers used as millisecond
    timestamps are Int, and thinkScale is modelled as a rational number.
-/

namespace FRL

/-! ### Generic string helpers -/

/-- Concatenate a list of strings (JS Array.prototype.join with empty
separator, also used to rebuild strings from per-char expansions). -/
def joinAll : List String → String
  | [] => ""
  | s :: rest => s ++ joinAll rest

/-- JS Array.prototype.join with a separator. -/
def joinSep (sep : String) : List String → String
  | [] => ""
  | [s] => s
  | s :: rest => s ++ sep ++ joinSep sep rest

/-- JS String.prototype.slice(0, n). -/
def strTake (s : String) (n : Nat) : String := ⟨s.data.take n⟩

/-- JS String.prototype.trim. Implemented over the char list (the core
String.trim does not reduce inside the kernel); ASCII/Unicode whitespace is
approximated by Char.isWhitespace. -/
def jsTrim (s : String) : String :=
  ⟨((s.data.dropWhile Char.isWhitespace).reverse.dropWhile Char.isWhitespace).reverse⟩

/-- JS String.prototype.toLowerCase (ASCII case mapping). -/
def jsToLower (s : String) : String := ⟨s.data.map Char.toLower⟩

/-- JS String.prototype.startsWith. -/
def jsStartsWith (s target : String) : Bool := target.data.isPrefixOf s.data

/-- JS String.prototype.endsWith. -/
def jsEndsWith (s suffixStr : String) : Bool := suffixStr.data.isSuffixOf s.data

/-- The needle occurs as a contiguous substring at position i of the haystack. -/
def sublistAt (needle hay : List Char) (i : Nat) : Bool :=
  (hay.drop i).take needle.length == needle

/-- JS String.prototype.includes / regex literal-substring match. -/
def strHasSub (hay needle : String) : Bool :=
  (List.range (hay.data.length + 1)).any (sublistAt needle.data hay.data)

/-- Substring containment as a proposition (for stating theorems). -/
def StrContains (s t : String) : Prop := ∃ a b, s = a ++ (t ++ b)

/-- Suffix containment as a proposition (for stating theorems). -/
def StrEndsWithP (s t : String) : Prop := ∃ a, s = a ++ t

/-- Helper for collapseWs: the flag records whether we are inside a
whitespace run that has already emitted its single space. -/
def collapseWsAux : List Char → Bool → List Char
  | [], _ => []
  | c :: rest, inRun =>
    if c.isWhitespace then
      if inRun then collapseWsAux rest true else ' ' :: collapseWsAux rest true
    else c :: collapseWsAux rest false

/-- Collapse every run of whitespace to a single space (regex /\s+/g → " "). -/
def collapseWs (s : String) : String := ⟨collapseWsAux s.data false⟩

/-- String association-list lookup used for DOM attribute maps. -/
def lookupAttr (attrs : List (String × String)) (name : String) : Option String :=
  match attrs.find? (fun p => p.1 == name) with
  | some p => some p.2
  | none => none

theorem strAppend_data (a b : String) : (a ++ b).data = a.data ++ b.data := rfl

theorem strAppend_assoc (a b c : String) : a ++ b ++ c = a ++ (b ++ c) := by
  cases a; cases b; cases c
  exact congrArg String.mk (List.append_assoc _ _ _)

theorem joinSep_last (sep x : String) : (l : List String) →
    ∃ a, joinSep sep (l ++ [x]) = a ++ x
  | [] => ⟨"", by cases x with | mk d => rfl⟩
  | [y] => ⟨y ++ sep, rfl⟩
  | y :: z :: zs => by
    obtain ⟨a, ha⟩ := joinSep_last sep x (z :: zs)
    refine ⟨y ++ sep ++ a, ?_⟩
    show y ++ sep ++ joinSep sep ((z :: zs) ++ [x]) = y ++ sep ++ a ++ x
    rw [ha]
    exact (strAppend_assoc (y ++ sep) a x).symm

/-! ### Trace model (extension/src/types.ts) -/

/-- One entry of BuiltSelector.alternatives. -/
structure AltSelector where
  strategy : String
  selector : String
  nameMatch : Option String
deriving DecidableEq, Repr

/-- types.ts BuiltSelector. The strategy is one of "aria" / "data" / "css";
optional fields are Options. -/
structure BuiltSelector where
  selector : String
  strategy : String
  nameMatch : Option String := none
  shadowChain : List String := []
  frameChain : List String := []
  textHint : Option String := none
  roleHint : Option String := none
  alternatives : List AltSelector := []
deriving DecidableEq, Repr

/-- types.ts ActionKind, flattened to a record with a name and optional
payload fields so that traces with unrecognized action names (possible at
runtime, the replayer switches on the string) are representable. -/
structure ActionData where
  name : String
  text : Option String := none
  key : Option String := none
  url : Option String := none
  title : Option String := none
  deltaX : Option Int := none
  deltaY : Option Int := none
  toSelector : Option BuiltSelector := none
  toX : Option Int := none
  toY : Option Int := none
deriving DecidableEq, Repr

/-- types.ts ActionStep (kind = "action"). -/
structure ActionStep where
  action : ActionData
  selector : BuiltSelector
  tabLid : Option Int := none
  timestamp : Int
  redacted : Option Bool := none
deriving DecidableEq, Repr

/-- types.ts WaitPredicateStep (kind = "waitForPredicate"); the predicate is
a string so that unknown predicate names are representable. -/
structure WaitStep where
  predicate : String
  container : Option BuiltSelector := none
  tabLid : Option Int := none
  timestamp : Int
deriving DecidableEq, Repr

/-- A trace step. `other` stands for steps whose kind is neither "action"
nor "waitForPredicate" (play only reads their timestamp). -/
inductive Step where
  | action (s : ActionStep)
  | wait (w : WaitStep)
  | other (timestamp : Int)
deriving DecidableEq, Repr

/-- step.timestamp, defined for every kind of step. -/
def Step.timestamp : Step → Int
  | .action s => s.timestamp
  | .wait w => w.timestamp
  | .other t => t

/-- types.ts TraceMeta. -/
structure TraceMeta where
  version : Int
  recorder : Option String := none
  startedAt : Option String := none
  userAgent : Option String := none
  viewport : Option (Int × Int) := none
  startUrl : Option String := none
deriving DecidableEq, Repr

/-- types.ts TracePayload. -/
structure TracePayload where
  meta : TraceMeta
  steps : List Step
deriving DecidableEq, Repr

/-! ### Settings (extension/src/settings.ts) -/

/-- Hostname extraction of `new URL(d).hostname` for strings that passed the
/^https?:\/\//i test: the authority is what follows "://" up to the first
"/", "?" or "#"; userinfo up to "@" is dropped; a ":port" tail is dropped.
The input is already lowercased. IPv6 bracket hosts and percent decoding are
not modelled (no claim depends on them). -/
def urlHostname (d : String) : String :=
  let afterScheme :=
    if jsStartsWith d "https://" then d.data.drop 8 else d.data.drop 7
  let authority := afterScheme.takeWhile (fun c => c ≠ '/' ∧ c ≠ '?' ∧ c ≠ '#')
  let afterUser :=
    if authority.contains '@' then (authority.reverse.takeWhile (· ≠ '@')).reverse
    else authority
  ⟨afterUser.takeWhile (· ≠ ':')⟩

/-- settings.ts normalizeDomain: trim + lowercase, extract the hostname of
http(s) URLs, strip the /^\*?\.?/ match (a lone "*", a lone ".", or "*."),
and strip one trailing dot. -/
def normalizeDomain (domain : String) : String :=
  let d := jsToLower (jsTrim domain)
  if d = "" then "" else
  let d := if jsStartsWith d "http://" ∨ jsStartsWith d "https://" then urlHostname d else d
  let d :=
    if jsStartsWith d "*." then ⟨d.data.drop 2⟩
    else if jsStartsWith d "*" then ⟨d.data.drop 1⟩
    else if jsStartsWith d "." then ⟨d.data.drop 1⟩
    else d
  let d := if jsEndsWith d "." then ⟨d.data.dropLast⟩ else d
  d

/-- settings.ts normalizeDomains: map normalizeDomain, then keep only
nonempty first occurrences (the filter runs over the mapped array). -/
def normalizeDomains (domains : List String) : List String :=
  let arr := domains.map normalizeDomain
  ((arr.enum).filter fun p => p.2 ≠ "" ∧ arr.indexOf p.2 = p.1).map Prod.snd

/-- settings.ts isDomainAllowed. -/
def isDomainAllowed (hostname : String) (allowed : List String) : Bool :=
  let host := normalizeDomain hostname
  let list := normalizeDomains allowed
  list.any fun d => host == d || jsEndsWith host ("." ++ d)

/-- The normalization described by the spec's words for C9: "lowercasing and
trimming, extracting the hostname from http(s) URLs, stripping a leading
'*.' or '.', and stripping a trailing dot" — written only to be compared
with normalizeDomain; it does not strip a lone leading "*". -/
def specNormalizeDomain (domain : String) : String :=
  let d := jsToLower (jsTrim domain)
  if d = "" then "" else
  let d := if jsStartsWith d "http://" ∨ jsStartsWith d "https://" then urlHostname d else d
  let d :=
    if jsStartsWith d "*." then ⟨d.data.drop 2⟩
    else if jsStartsWith d "." then ⟨d.data.drop 1⟩
    else d
  let d := if jsEndsWith d "." then ⟨d.data.dropLast⟩ else d
  d

/-- The allowlist predicate described by the spec's words for C9: true iff
the normalized hostname equals some normalized entry or ends with "." plus
that entry (every entry participates; nothing about dropping empties). -/
def SpecIsDomainAllowed (hostname : String) (allowed : List String) : Prop :=
  ∃ d ∈ allowed,
    specNormalizeDomain hostname = specNormalizeDomain d ∨
    jsEndsWith (specNormalizeDomain hostname) ("." ++ specNormalizeDomain d) = true

instance (hostname : String) (allowed : List String) :
    Decidable (SpecIsDomainAllowed hostname allowed) := by
  unfold SpecIsDomainAllowed; infer_instance

theorem mem_normalizeDomains (l : List String) (x : String) :
    x ∈ normalizeDomains l ↔ x ≠ "" ∧ x ∈ l.map normalizeDomain := by
  unfold normalizeDomains
  constructor
  · intro hx
    obtain ⟨p, hp, rfl⟩ := List.mem_map.1 hx
    obtain ⟨henum, hcond⟩ := List.mem_filter.1 hp
    obtain ⟨hne, _⟩ := of_decide_eq_true hcond
    refine ⟨hne, ?_⟩
    have := List.mk_mem_enum_iff_getElem?.1 (by exact henum)
    exact List.getElem?_mem this
  · rintro ⟨hne, hmem⟩
    refine List.mem_map.2 ⟨((l.map normalizeDomain).indexOf x, x), ?_, rfl⟩
    refine List.mem_filter.2 ⟨?_, ?_⟩
    · exact List.mk_mem_enum_iff_getElem?.2 (List.getElem?_indexOf hmem)
    · exact decide_eq_true ⟨hne, rfl⟩

/-- C9 counterexample: normalizeDomain also strips a lone leading "*"
(the regex is /^\*?\.?/), so the entry "*example.com" matches the hostname
"example.com" even though the spec's normalization (strip only "*." or ".")
would keep the "*" and reject the match. The claimed "if and only if" is
therefore false at this input. -/
theorem c9_counterexample_lone_star :
    isDomainAllowed "example.com" ["*example.com"] = true ∧
    ¬ SpecIsDomainAllowed "example.com" ["*example.com"] := by decide

/-- C9 (amended): isDomainAllowed is a pure predicate; it normalizes the
hostname and every entry (lowercase + trim, hostname extraction for http(s)
URLs, stripping a leading "*.", a lone "*", or a lone ".", stripping one
trailing dot) and returns true iff some allowlist entry has a nonempty
normalized form that the normalized hostname equals or ends with "." plus
that form (empty normalized entries are dropped from the list). -/
theorem c9_isDomainAllowed_normalized_iff (hostname : String) (allowed : List String) :
    isDomainAllowed hostname allowed = true ↔
    ∃ d ∈ allowed, normalizeDomain d ≠ "" ∧
      (normalizeDomain hostname = normalizeDomain d ∨
       jsEndsWith (normalizeDomain hostname) ("." ++ normalizeDomain d) = true) := by
  simp only [isDomainAllowed]
  rw [List.any_eq_true]
  constructor
  · rintro ⟨d, hd, hp⟩
    obtain ⟨hne, hmem⟩ := (mem_normalizeDomains allowed d).1 hd
    obtain ⟨d₀, hd₀, hnorm⟩ := List.mem_map.1 hmem
    rcases cast (Bool.or_eq_true _ _) hp with h | h
    · exact ⟨d₀, hd₀, hnorm ▸ hne, Or.inl (hnorm ▸ eq_of_beq h)⟩
    · exact ⟨d₀, hd₀, hnorm ▸ hne, Or.inr (hnorm ▸ h)⟩
  · rintro ⟨d₀, hd₀, hne, hor⟩
    refine ⟨normalizeDomain d₀,
      (mem_normalizeDomains allowed _).2 ⟨hne, List.mem_map_of_mem _ hd₀⟩, ?_⟩
    rcases hor with h | h
    · exact cast (Bool.or_eq_true _ _).symm (Or.inl (by rw [h]; exact beq_self_eq_true _))
    · exact cast (Bool.or_eq_true _ _).symm (Or.inr h)

/-- Witness for C9: the amended characterization applied at a concrete
input (a subdomain matching a scheme-qualified allowlist entry). -/
theorem c9_witness_subdomain :
    ∃ d ∈ ["https://Example.com"], normalizeDomain d ≠ "" ∧
      (normalizeDomain "sub.example.com" = normalizeDomain d ∨
       jsEndsWith (normalizeDomain "sub.example.com") ("." ++ normalizeDomain d) = true) :=
  (c9_isDomainAllowed_normalized_iff "sub.example.com" ["https://Example.com"]).mp (by decide)

/-! ### Capture engine: sensitivity detection and input capture

The repository holds two generations of the Recorder class. The complete
one (the unnamed source carrying detectSensitivity, hover/drag capture,
tabLid stamping and startUrl) is embedded as the part005-prefixed or plain
definitions; where extension/src/recorder.ts diverges from it, the older
copy is embedded separately with a Legacy suffix. -/

/-- JS `a || b` on an optional string attribute: the default is used when
the attribute is missing or empty (falsy). -/
def jsOrDefault (o : Option String) (dflt : String) : String :=
  match o with
  | some s => if s = "" then dflt else s
  | none => dflt

/-- First truthy (present and nonempty) string of a chain of `||`s,
defaulting to "". -/
def firstTruthy : List (Option String) → String
  | [] => ""
  | some s :: rest => if s = "" then firstTruthy rest else s
  | none :: rest => firstTruthy rest

def isDashOrWs (c : Char) : Bool := c == '-' || c.isWhitespace

/-- Match of the alternative one[-\s]?time at position i ("one", optionally
one dash or whitespace char, then "time"). -/
def matchOneTimeAt (l : List Char) (i : Nat) : Bool :=
  sublistAt "one".data l i &&
    (sublistAt "time".data l (i + 3) ||
      (match l.drop (i + 3) with
       | c :: _ => isDashOrWs c && sublistAt "time".data l (i + 4)
       | [] => false))

/-- Match of the alternative api\s*key at position i ("api", any run of
whitespace, then "key"). -/
def matchApiKeyAt (l : List Char) (i : Nat) : Bool :=
  sublistAt "api".data l i &&
    ((l.drop (i + 3)).dropWhile Char.isWhitespace).take 3 == "key".data

/-- The sensitivity regex /password|passcode|otp|one[-\s]?time|secret|api\s*key|token/i
applied to a string the caller has already lowercased (making the /i flag
redundant). -/
def sensitiveRegexTest (s : String) : Bool :=
  let l := s.data
  strHasSub s "password" || strHasSub s "passcode" || strHasSub s "otp" ||
  (List.range (l.length + 1)).any (matchOneTimeAt l) ||
  strHasSub s "secret" ||
  (List.range (l.length + 1)).any (matchApiKeyAt l) ||
  strHasSub s "token"

/-- Snapshot of the DOM lookups detectSensitivity / findAssociatedLabelText
perform on the event target: element kind, attributes, and the label texts
the document-level queries would return. -/
structure SensTarget where
  isInputElement : Bool := false
  typeAttr : Option String := none
  hasId : Bool := false
  labelForText : Option String := none
  closestLabelText : Option String := none
  ariaLabel : Option String := none
  titleAttr : Option String := none
  placeholder : Option String := none
deriving DecidableEq, Repr

/-- Recorder.findAssociatedLabelText: explicit label[for=id] first (only
when the target has an id and such a label exists), else the closest
<label> ancestor; textContent is trimmed; null when neither exists. -/
def findAssociatedLabelText (t : SensTarget) : Option String :=
  match (if t.hasId then t.labelForText else none) with
  | some s => some (jsTrim s)
  | none => t.closestLabelText.map jsTrim

/-- Recorder.detectSensitivity: password-typed inputs, else a sensitive
associated label, else a sensitive aria-label / title / placeholder. -/
def detectSensitivity (t : SensTarget) : Bool :=
  if t.isInputElement ∧ jsToLower (jsOrDefault t.typeAttr "text") = "password" then true
  else
    let maybeLabelText := jsToLower ((findAssociatedLabelText t).getD "")
    if maybeLabelText ≠ "" ∧ sensitiveRegexTest maybeLabelText then true
    else
      let aria := jsToLower (firstTruthy [t.ariaLabel, t.titleAttr, t.placeholder])
      if aria ≠ "" ∧ sensitiveRegexTest aria then true
      else false

/-- In-progress recorder state (explicit object for the class fields the
claims touch). -/
structure RecorderState where
  isRecording : Bool := false
  steps : List Step := []
  startUrl : Option String := none
deriving DecidableEq, Repr

/-- Recorder.pushStep's tabLid stamping: default the logical tab id to 1
when unset. Steps of other kinds are pushed unchanged (the recorder only
ever pushes action and waitForPredicate steps). -/
def stampTabLid : Step → Step
  | .action a => .action { a with tabLid := match a.tabLid with | none => some 1 | some v => some v }
  | .wait w => .wait { w with tabLid := match w.tabLid with | none => some 1 | some v => some v }
  | .other t => .other t

/-- Recorder.pushStep (complete recorder copy). -/
def pushStep (st : RecorderState) (s : Step) : RecorderState :=
  { st with steps := st.steps ++ [stampTabLid s] }

/-- Recorder.onInput of the complete recorder copy: records a type action
only when the InputEvent carried inserted text, masking it as "***" and
flagging redacted when the target is sensitive (redacted: isSensitive ||
undefined). -/
def onInput (st : RecorderState) (target : SensTarget) (eventData : Option String)
    (selector : BuiltSelector) (now : Int) : RecorderState :=
  if st.isRecording = false then st
  else
    let text := eventData.getD ""
    if text = "" then st
    else
      let isSensitive := detectSensitivity target
      let recordedText := if isSensitive then "***" else text
      pushStep st (.action
        { action := { name := "type", text := some recordedText }
          selector := selector
          timestamp := now
          redacted := if isSensitive then some true else none })

/-- Recorder.onInput of extension/src/recorder.ts: same event filtering but
no sensitivity handling at all — the raw InputEvent data is recorded and no
redacted flag is set (steps are pushed directly, without tabLid stamping). -/
def onInputLegacy (st : RecorderState) (eventData : Option String)
    (selector : BuiltSelector) (now : Int) : RecorderState :=
  if st.isRecording = false then st
  else
    let text := eventData.getD ""
    if text = "" then st
    else
      { st with steps := st.steps ++ [.action
          { action := { name := "type", text := some text }
            selector := selector
            timestamp := now }] }

/-- Environment values Recorder.dump reads from the page (clock, navigator,
window geometry). -/
structure DumpEnv where
  startedAt : String
  userAgent : String
  viewport : Int × Int
deriving DecidableEq, Repr

/-- Recorder.dump: fresh meta plus this.steps.slice() — a shallow copy of
the captured list, with no processing of its own. The FRL_DOWNLOAD message
handler that delivers the payload (downloadPayload below) post-processes
the dumped steps with dedupeConsecutiveWaits. -/
def Recorder.dump (env : DumpEnv) (st : RecorderState) : TracePayload :=
  { meta :=
      { version := 1
        recorder := some "frl-ext"
        startedAt := some env.startedAt
        userAgent := some env.userAgent
        viewport := some env.viewport
        startUrl := st.startUrl }
    steps := st.steps }

/-- Two adjacent steps are both waitForPredicate with identical
(predicate, container.selector) — a coarser key than the full-container one
background.ts dedupes on. -/
def sameWaitKey (a b : Step) : Bool :=
  match a, b with
  | .wait w1, .wait w2 =>
    w1.predicate == w2.predicate &&
      (w1.container.map BuiltSelector.selector) == (w2.container.map BuiltSelector.selector)
  | _, _ => false

/-- Some pair of consecutive steps is a duplicated waitForPredicate pair. -/
def hasConsecDupWaits : List Step → Bool
  | a :: b :: rest => sameWaitKey a b || hasConsecDupWaits (b :: rest)
  | _ => false

/-- The dedupe key of background.ts dedupeConsecutiveWaits:
`predicate + "|" + JSON.stringify(container ?? null)`. JSON serialization is
injective on the container records modelled here (an absent optional field
and an undefined one serialize alike, which Option already identifies), so
the string key is modelled as the (predicate, container) pair, whose
equality coincides with key equality. The key carries the WHOLE container
object, not container.selector alone. -/
def waitKey (w : WaitStep) : String × Option BuiltSelector :=
  (w.predicate, w.container)

/-- Two adjacent steps are both waitForPredicate with identical dedupe key
(predicate and whole container). -/
def sameWaitKeyFull : Step → Step → Bool
  | .wait w1, .wait w2 => decide (waitKey w1 = waitKey w2)
  | _, _ => false

/-- Some pair of consecutive steps is a duplicated waitForPredicate pair
under the full-container key. -/
def hasConsecDupWaitsFull : List Step → Bool
  | a :: b :: rest => sameWaitKeyFull a b || hasConsecDupWaitsFull (b :: rest)
  | _ => false

/-- background.ts dedupeConsecutiveWaits: walks the steps carrying the key
of the last kept waitForPredicate step; a wait step whose key equals it is
dropped, any other wait step is kept and becomes the new key, and a
non-wait step is kept and clears the key. Every visited step is defensively
stamped with tabLid 1 when unset, before the comparison. -/
def dedupeConsecutiveWaits : List Step → Option (String × Option BuiltSelector) → List Step
  | [], _ => []
  | s :: rest, lastWaitKey =>
    match stampTabLid s with
    | .wait w =>
      if lastWaitKey = some (waitKey w) then dedupeConsecutiveWaits rest lastWaitKey
      else Step.wait w :: dedupeConsecutiveWaits rest (some (waitKey w))
    | .action a => Step.action a :: dedupeConsecutiveWaits rest none
    | .other t => Step.other t :: dedupeConsecutiveWaits rest none

/-- The FRL_DOWNLOAD handler of the background.ts content-script copy: the
delivered payload is recorder.dump() with dedupeConsecutiveWaits applied to
its steps (the surrounding try/catch never fires here: the walk is total).
This is the dump path through which a TracePayload reaches the caller. -/
def downloadPayload (env : DumpEnv) (st : RecorderState) : TracePayload :=
  let payload := Recorder.dump env st
  { payload with steps := dedupeConsecutiveWaits payload.steps none }

/-! ### Capture engine: predicate-detector observation window -/

/-- Flags raced by the capture-time predicate detector. -/
structure PredFlags where
  urlChanged : Bool := false
  domAdded : Bool := false
  ariaLiveUpdated : Bool := false
  textChanged : Bool := false
  layoutStable : Bool := false
deriving DecidableEq, Repr

/-- One observable occurrence inside the 2000 ms observation window:
a container mutation batch, a title mutation (the callback reads the
current document.title and location.href), a popstate/hashchange/
frl:locationchange event (the listener reads the current location.href),
or one 50 ms poll of the idle clock. -/
inductive CaptureEvent where
  | containerMutation (addsElementNode : Bool) (touchesAriaLive : Bool) (containerTextNow : String)
  | titleMutation (titleNow : String) (hrefNow : String)
  | urlEvent (hrefNow : String)
  | idlePoll (idleAtLeast800 : Bool)
deriving DecidableEq, Repr

/-- Baselines captured when the observation window opens. -/
structure ObsBaseline where
  url : String
  title : String
  text : String
deriving DecidableEq, Repr

/-- Flag updates of the complete recorder copy. The title observer sets
urlChanged only when the title changed AND location.href differs from the
baseline (its comment: title changes should NOT imply urlChanged). -/
def applyCaptureEvent (base : ObsBaseline) (f : PredFlags) : CaptureEvent → PredFlags
  | .containerMutation adds aria textNow =>
    { f with
        domAdded := f.domAdded || adds
        ariaLiveUpdated := f.ariaLiveUpdated || aria
        textChanged := f.textChanged || decide (textNow ≠ base.text) }
  | .titleMutation titleNow hrefNow =>
    if titleNow ≠ base.title ∧ hrefNow ≠ base.url then { f with urlChanged := true } else f
  | .urlEvent hrefNow =>
    if hrefNow ≠ base.url then { f with urlChanged := true } else f
  | .idlePoll idle => { f with layoutStable := idle }

/-- Flag updates of extension/src/recorder.ts: identical except for the
title observer, which runs `flags.urlChanged = location.href !== baselineUrl
|| true` — the `|| true` makes any title change set urlChanged even when
the location still equals the baseline. -/
def applyCaptureEventLegacy (base : ObsBaseline) (f : PredFlags) : CaptureEvent → PredFlags
  | .titleMutation titleNow hrefNow =>
    if titleNow ≠ base.title then { f with urlChanged := (decide (hrefNow ≠ base.url) || true) } else f
  | e => applyCaptureEvent base f e

/-- Recorder.pickBestAvailable: first set flag in the fixed priority order
urlChanged > domAdded > ariaLiveUpdated > textChanged > layoutStable. -/
def pickBestAvailable (f : PredFlags) : Option String :=
  if f.urlChanged then some "urlChanged"
  else if f.domAdded then some "domAdded"
  else if f.ariaLiveUpdated then some "ariaLiveUpdated"
  else if f.textChanged then some "textChanged"
  else if f.layoutStable then some "layoutStable"
  else none

/-- The predicates the observation loop can resolve to, given the events of
the window: the 800 ms-idle fallback layoutStable, or the best available
flag at some poll instant (flag state = fold of the events seen so far);
the 100 ms grace re-pick is one such instant. -/
def CanEmitPredicate (base : ObsBaseline) (events : List CaptureEvent) (p : String) : Prop :=
  p = "layoutStable" ∨
  ∃ n, pickBestAvailable ((events.take n).foldl (applyCaptureEvent base) {}) = some p

/-- The location.href value an event's handler observes, if any. -/
def eventHref : CaptureEvent → Option String
  | .titleMutation _ h => some h
  | .urlEvent h => some h
  | _ => none

/-- A concrete container selector used in the capture examples. -/
def demoSel : BuiltSelector := { selector := "#pwd", strategy := "css" }

/-- A concrete dump environment used in the capture examples. -/
def demoDumpEnv : DumpEnv :=
  { startedAt := "2024-01-01T00:00:00Z", userAgent := "ua", viewport := (800, 600) }

/-- C1: typing the character "s" into a password-typed input labeled
"Password" is sensitive by the recorder's own detector, yet the
extension/src/recorder.ts copy of onInput records the raw text: the dumped
payload holds a type step with action.text "s" and no redacted flag (its
own unit test recorder.test.ts expects "***" and redacted = true, which the
complete recorder copy implements). -/
theorem c1_legacy_recorder_skips_redaction :
    detectSensitivity
      { isInputElement := true, typeAttr := some "password",
        hasId := true, labelForText := some "Password" } = true ∧
    (Recorder.dump demoDumpEnv
        (onInputLegacy { isRecording := true } (some "s") demoSel 500)).steps =
      [Step.action
        { action := { name := "type", text := some "s" }
          selector := demoSel
          timestamp := 500 }] := by decide

/-- The complete recorder copy does redact: a sensitive target always
yields a masked "***" type step flagged redacted (and stamped tabLid 1). -/
theorem onInput_redacts_sensitive (st : RecorderState) (target : SensTarget)
    (data : String) (sel : BuiltSelector) (now : Int)
    (hrec : st.isRecording = true) (hdata : data ≠ "")
    (hsens : detectSensitivity target = true) :
    (onInput st target (some data) sel now).steps =
      st.steps ++ [Step.action
        { action := { name := "type", text := some "***" }
          selector := sel
          tabLid := some 1
          timestamp := now
          redacted := some true }] := by
  simp [onInput, hrec, hdata, hsens, pushStep, stampTabLid]

/-- Noninterference form of the redaction guarantee in the complete
recorder copy: for a sensitive target the dumped payload is identical
whatever nonempty text the user typed, so the typed characters cannot leak
into it. -/
theorem onInput_secret_noninterference (st : RecorderState) (target : SensTarget)
    (t1 t2 : String) (sel : BuiltSelector) (now : Int) (env : DumpEnv)
    (hs : detectSensitivity target = true) (h1 : t1 ≠ "") (h2 : t2 ≠ "") :
    Recorder.dump env (onInput st target (some t1) sel now) =
      Recorder.dump env (onInput st target (some t2) sel now) := by
  by_cases hrec : st.isRecording = false
  · simp [onInput, hrec]
  · simp [onInput, hrec, h1, h2, hs]

/-- C2: in the extension/src/recorder.ts flag updates, a title mutation
whose observed location.href still equals the baseline URL sets the
urlChanged flag (the handler ends in || true), and the priority pick then
resolves to urlChanged — although every href observed during the window
equals the baseline. -/
theorem c2_legacy_title_only_change_emits_urlChanged :
    (([CaptureEvent.titleMutation "Home - updated" "https://app.test/home"].foldl
        (applyCaptureEventLegacy { url := "https://app.test/home", title := "Home", text := "" })
        {}).urlChanged = true) ∧
    pickBestAvailable
      ([CaptureEvent.titleMutation "Home - updated" "https://app.test/home"].foldl
        (applyCaptureEventLegacy { url := "https://app.test/home", title := "Home", text := "" })
        {}) = some "urlChanged" ∧
    (∀ e ∈ [CaptureEvent.titleMutation "Home - updated" "https://app.test/home"],
      eventHref e = some "https://app.test/home") := by decide

/-- In the complete recorder copy the urlChanged flag can only be raised by
an event that actually observed a non-baseline location.href. -/
theorem urlChanged_flag_fold (base : ObsBaseline) :
    ∀ (events : List CaptureEvent) (f : PredFlags),
      ((events.foldl (applyCaptureEvent base) f).urlChanged = true) →
      f.urlChanged = true ∨ ∃ e ∈ events, ∃ u, eventHref e = some u ∧ u ≠ base.url := by
  intro events
  induction events with
  | nil => exact fun f hf => Or.inl hf
  | cons e es ih =>
    intro f hf
    rcases ih (applyCaptureEvent base f e) hf with h1 | h1
    · cases e with
      | containerMutation adds aria textNow =>
        exact Or.inl (by simpa [applyCaptureEvent] using h1)
      | titleMutation t u =>
        by_cases hc : t ≠ base.title ∧ u ≠ base.url
        · exact Or.inr ⟨_, List.mem_cons_self _ _, u, rfl, hc.2⟩
        · exact Or.inl (by simpa [applyCaptureEvent, hc] using h1)
      | urlEvent u =>
        by_cases hc : u ≠ base.url
        · exact Or.inr ⟨_, List.mem_cons_self _ _, u, rfl, hc⟩
        · exact Or.inl (by simpa [applyCaptureEvent, hc] using h1)
      | idlePoll b =>
        exact Or.inl (by simpa [applyCaptureEvent] using h1)
    · obtain ⟨e', he', hh⟩ := h1
      exact Or.inr ⟨e', List.mem_cons_of_mem _ he', hh⟩

/-- In the complete recorder copy, an observation window can only resolve
to urlChanged if some handler observed a location different from the
baseline: a title-only change never yields urlChanged. -/
theorem part005_urlChanged_requires_location_change (base : ObsBaseline)
    (events : List CaptureEvent)
    (h : CanEmitPredicate base events "urlChanged") :
    ∃ e ∈ events, ∃ u, eventHref e = some u ∧ u ≠ base.url := by
  rcases h with habs | ⟨n, hn⟩
  · exact absurd habs (by decide)
  · have hflag : ((events.take n).foldl (applyCaptureEvent base) {}).urlChanged = true := by
      by_contra hflag
      simp only [Bool.not_eq_true] at hflag
      simp only [pickBestAvailable, hflag] at hn
      split_ifs at hn <;> simp_all
    rcases urlChanged_flag_fold base (events.take n) {} hflag with hinit | hev
    · exact absurd hinit (by decide)
    · obtain ⟨e, he, u, hu, hne⟩ := hev
      exact ⟨e, List.take_subset n events he, u, hu, hne⟩

/-- Steps list with two consecutive identical (predicate, container)
waitForPredicate steps, as the interleaved observation windows can
produce. -/
def dupWaitSteps : List Step :=
  [Step.wait { predicate := "domAdded", container := some { selector := "#list", strategy := "css" },
               tabLid := some 1, timestamp := 100 },
   Step.wait { predicate := "domAdded", container := some { selector := "#list", strategy := "css" },
               tabLid := some 1, timestamp := 300 }]

/-- Two consecutive domAdded waits on the same container.selector whose
containers differ in textHint only, as re-resolving the container of a page
whose text changed between two observation windows produces. -/
def dupSelectorWaitSteps : List Step :=
  [Step.wait { predicate := "domAdded",
               container := some { selector := "#list", strategy := "css",
                                   textHint := some "Loading" },
               tabLid := some 1, timestamp := 100 },
   Step.wait { predicate := "domAdded",
               container := some { selector := "#list", strategy := "css",
                                   textHint := some "Loaded" },
               tabLid := some 1, timestamp := 300 }]

/-- A waitForPredicate step at the head of a dedupe walk that carried a key
cannot carry that same key. -/
theorem dedupe_head_wait_ne (steps : List Step) :
    ∀ (k : Option (String × Option BuiltSelector)) (w : WaitStep) (out : List Step),
      dedupeConsecutiveWaits steps k = Step.wait w :: out → k ≠ some (waitKey w) := by
  induction steps with
  | nil =>
    intro k w out h
    simp [dedupeConsecutiveWaits] at h
  | cons s rest ih =>
    intro k w out h
    cases hs : stampTabLid s with
    | wait w0 =>
      simp only [dedupeConsecutiveWaits, hs] at h
      by_cases hk : k = some (waitKey w0)
      · rw [if_pos hk] at h
        exact ih k w out h
      · rw [if_neg hk] at h
        injection h with h1 h2
        injection h1 with h1
        subst h1
        exact hk
    | action a =>
      simp only [dedupeConsecutiveWaits, hs] at h
      injection h with h1 h2
      exact Step.noConfusion h1
    | other t =>
      simp only [dedupeConsecutiveWaits, hs] at h
      injection h with h1 h2
      exact Step.noConfusion h1

/-- The dedupe walk leaves no consecutive pair of waitForPredicate steps
sharing the full-container key. -/
theorem dedupe_no_consec (steps : List Step) :
    ∀ (k : Option (String × Option BuiltSelector)),
      hasConsecDupWaitsFull (dedupeConsecutiveWaits steps k) = false := by
  induction steps with
  | nil => intro k; rfl
  | cons s rest ih =>
    intro k
    cases hs : stampTabLid s with
    | wait w =>
      simp only [dedupeConsecutiveWaits, hs]
      by_cases hk : k = some (waitKey w)
      · rw [if_pos hk]; exact ih k
      · rw [if_neg hk]
        cases hout : dedupeConsecutiveWaits rest (some (waitKey w)) with
        | nil => rfl
        | cons y out =>
          have htail : hasConsecDupWaitsFull (y :: out) = false :=
            hout ▸ ih (some (waitKey w))
          have hhead : sameWaitKeyFull (Step.wait w) y = false := by
            cases y with
            | wait v =>
              have hne := dedupe_head_wait_ne rest (some (waitKey w)) v out hout
              simp only [sameWaitKeyFull, decide_eq_false_iff_not]
              intro heq
              exact hne (congrArg some heq)
            | action a => rfl
            | other t => rfl
          simp [hasConsecDupWaitsFull, hhead, htail]
    | action a =>
      simp only [dedupeConsecutiveWaits, hs]
      cases hout : dedupeConsecutiveWaits rest none with
      | nil => rfl
      | cons y out =>
        have htail : hasConsecDupWaitsFull (y :: out) = false := hout ▸ ih none
        have hhead : sameWaitKeyFull (Step.action a) y = false := by
          cases y <;> rfl
        simp [hasConsecDupWaitsFull, hhead, htail]
    | other t =>
      simp only [dedupeConsecutiveWaits, hs]
      cases hout : dedupeConsecutiveWaits rest none with
      | nil => rfl
      | cons y out =>
        have htail : hasConsecDupWaitsFull (y :: out) = false := hout ▸ ih none
        have hhead : sameWaitKeyFull (Step.other t) y = false := by
          cases y <;> rfl
        simp [hasConsecDupWaitsFull, hhead, htail]

/-- C3 counterexample: the dump-path collapse keys on the predicate plus the
JSON serialization of the WHOLE container, not on (predicate,
container.selector): two consecutive domAdded waits on the same
container.selector whose containers differ only in textHint pass through
the FRL_DOWNLOAD dump path verbatim, so the delivered payload still holds a
consecutive pair of waitForPredicate steps with identical (predicate,
container.selector). -/
theorem c3_counterexample_selector_key_pair_survives_dump :
    hasConsecDupWaits
      ((downloadPayload demoDumpEnv
        { isRecording := false, steps := dupSelectorWaitSteps, startUrl := none }).steps) = true ∧
    (downloadPayload demoDumpEnv
      { isRecording := false, steps := dupSelectorWaitSteps, startUrl := none }).steps =
      dupSelectorWaitSteps := by decide

/-- C3 (amended): the TracePayload delivered by the FRL_DOWNLOAD dump path
is recorder.dump() with dedupeConsecutiveWaits applied to its steps, and in
it no two consecutive steps are both waitForPredicate with identical
(predicate, container): the collapse key is the predicate plus the JSON
serialization of the whole container (null when absent), so consecutive
waits identical in container.selector but differing elsewhere in the
container are NOT collapsed. Collapsing happens only at dump time:
capture-time pushStep appends verbatim (tabLid stamping apart), so the
in-progress list may still hold duplicates before dump. -/
theorem c3_dump_path_collapses_by_full_container_key :
    ∀ (env : DumpEnv) (st : RecorderState) (s : Step),
      (downloadPayload env st).steps = dedupeConsecutiveWaits st.steps none ∧
      hasConsecDupWaitsFull ((downloadPayload env st).steps) = false ∧
      (pushStep st s).steps = st.steps ++ [stampTabLid s] :=
  fun env st s => ⟨rfl, dedupe_no_consec st.steps none, rfl⟩

/-- Witness for C3: the amended statement at a concrete state whose captured
list holds two fully identical consecutive domAdded waits — the dump path
delivers them collapsed to a single step. -/
theorem c3_witness_full_duplicates_collapse :
    hasConsecDupWaitsFull dupWaitSteps = true ∧
    (downloadPayload demoDumpEnv
      { isRecording := false, steps := dupWaitSteps, startUrl := none }).steps =
      [Step.wait { predicate := "domAdded",
                   container := some { selector := "#list", strategy := "css" },
                   tabLid := some 1, timestamp := 100 }] ∧
    hasConsecDupWaitsFull ((downloadPayload demoDumpEnv
      { isRecording := false, steps := dupWaitSteps, startUrl := none }).steps) = false :=
  ⟨by decide, by decide,
   (c3_dump_path_collapses_by_full_container_key demoDumpEnv
     { isRecording := false, steps := dupWaitSteps, startUrl := none } (Step.other 0)).2.1⟩

/-! ### Replay engine (extension/src/replayer.ts)

Debugging-protocol round trips are abstracted: applyAction returns the list
of protocol commands it issues (method names only; pointer coordinates and
event payloads are not tracked) inside Except, and each in-page polling or
observer routine is represented by its eventual outcome, stored in an
environment record. -/

/-- A protocol interaction issued during replay. -/
inductive Cmd where
  | send (method : String)
  | evalJs (desc : String)
  | sleepMs (ms : Nat)
deriving DecidableEq, Repr

/-- Hex digit as JSON.stringify prints it (lowercase). -/
def hexDigit (n : Nat) : Char :=
  if n < 10 then Char.ofNat (48 + n) else Char.ofNat (87 + n)

/-- Per-character escaping of JSON.stringify for strings. -/
def jsonEscapeChar (c : Char) : String :=
  if c = '"' then "\\\""
  else if c = '\\' then "\\\\"
  else if c = '\n' then "\\n"
  else if c = '\r' then "\\r"
  else if c = '\t' then "\\t"
  else if c = '\x08' then "\\b"
  else if c = '\x0c' then "\\f"
  else if c.toNat < 32 then
    "\\u00" ++ String.singleton (hexDigit (c.toNat / 16)) ++ String.singleton (hexDigit (c.toNat % 16))
  else String.singleton c

/-- JSON.stringify applied to a string value. -/
def jsonStringify (s : String) : String :=
  "\"" ++ joinAll (s.data.map jsonEscapeChar) ++ "\""

/-- CDPReplayer.friendlyPredicateName. -/
def friendlyPredicateName (pred : String) : String :=
  if pred = "urlChanged" then "navigation"
  else if pred = "domAdded" then "content to appear"
  else if pred = "ariaLiveUpdated" then "announcement"
  else if pred = "textChanged" then "text update"
  else if pred = "layoutStable" then "page to settle"
  else pred

/-- The container part of friendlyWaitTimeoutMessage: present only when the
step carries a container with a truthy (nonempty) selector. -/
def waitWhereSel (step : WaitStep) : String :=
  match step.container with
  | some c => if c.selector ≠ "" then " in container: " ++ jsonStringify c.selector else ""
  | none => ""

/-- CDPReplayer.friendlyWaitTimeoutMessage. Math.round(timeoutMs / 1000) is
Nat division here; every call site passes the fixed 30000, a multiple of
1000, where the two agree. -/
def friendlyWaitTimeoutMessage (step : WaitStep) (timeoutMs : Nat) : String :=
  "Timed out after " ++ toString (timeoutMs / 1000) ++ "s waiting for " ++
    friendlyPredicateName step.predicate ++ waitWhereSel step

/-- Mutable per-session replay state (last applied action identity/time). -/
structure ReplayerState where
  lastActionName : Option String := none
  lastActionSelectorRaw : Option String := none
  lastActionTs : Option Int := none
deriving DecidableEq, Repr

/-- Properties of the page element a container selector resolves to, as the
in-page routines query them. -/
structure PageElemProps where
  isContentEditableProp : Bool := false
  contenteditableAttr : Option String := none
  width : Int := 0
  height : Int := 0
  role : Option String := none
  idAttr : String := ""
  className : String := ""
deriving DecidableEq, Repr

/-- CDPReplayer.isContentEditableContainer. The function declaration it
ships to Runtime.callFunctionOn contains the TypeScript-only expression
(el as any) inside its plain-JS string, a SyntaxError when the page parses
the declaration: callFunctionOn always rejects and the surrounding catch
returns false — for every container, whatever the element's actual
contenteditable state. -/
def isContentEditableContainer (_resolved : Option PageElemProps) : Bool := false

/-- Outcome of waitForTextChangeObserver. -/
structure TextObs where
  changed : Bool := false
  currentText : String := ""
  currentHtml : String := ""
deriving DecidableEq, Repr

/-- Environment of one waitPredicate call: the resolved container and the
eventual outcome of each in-page observation routine within the 30 s
ceiling. -/
structure WaitEnv where
  resolvedContainer : Option PageElemProps := none
  bodyEl : PageElemProps := {}
  urlChangedWithin : Bool := false
  domAddedWithin : Bool := false
  textObs : TextObs := {}
  ariaLiveWithin : Bool := false
  layoutStableWithin : Bool := false
deriving DecidableEq, Repr

/-- CDPReplayer.waitPredicate: per-predicate dispatch with the 30 s ceiling;
timeouts surface friendlyWaitTimeoutMessage (textChanged appends previews of
the current content); unknown predicates are a no-op. The domAdded branch
first consults isContentEditableContainer (constantly false, see above) and
then calls waitForDomAddedObserver, whose function string also contains
(el as any) and never parses: callFunctionOn rejects, the branch's catch
fires, and every domAdded wait raises the friendly message — the observer's
intended skip/escalation logic (including its document-root escalation for
contenteditable, sentinel-like, or implausibly small containers) never
executes, and the environment's domAddedWithin outcome is never consulted. -/
def waitPredicate (st : ReplayerState) (env : WaitEnv) (step : WaitStep) : Except String Unit :=
  if step.predicate = "urlChanged" then
    if env.urlChangedWithin then .ok () else .error (friendlyWaitTimeoutMessage step 30000)
  else if step.predicate = "domAdded" then
    if isContentEditableContainer env.resolvedContainer then .ok ()
    else .error (friendlyWaitTimeoutMessage step 30000)
  else if step.predicate = "textChanged" then
    let containerSel := (step.container.map BuiltSelector.selector).getD ""
    if st.lastActionName = some "type" ∧ containerSel ≠ "" ∧
        some containerSel = st.lastActionSelectorRaw then .ok ()
    else if env.textObs.changed then .ok ()
    else
      let textPreview := strTake env.textObs.currentText 160
      let htmlPreview := strTake env.textObs.currentHtml 160
      .error (friendlyWaitTimeoutMessage step 30000 ++ ". Current text: " ++
        jsonStringify textPreview ++
        (if htmlPreview ≠ "" then ", html: " ++ jsonStringify htmlPreview else ""))
  else if step.predicate = "ariaLiveUpdated" then
    if env.ariaLiveWithin then .ok () else .error (friendlyWaitTimeoutMessage step 30000)
  else if step.predicate = "layoutStable" then
    if env.layoutStableWithin then .ok () else .error (friendlyWaitTimeoutMessage step 30000)
  else .ok ()

/-- Environment of one applyAction call: element resolution outcome, the
navigate readiness poll outcome, and the clock. -/
structure ActionEnv where
  resolveCenter : BuiltSelector → Option (Int × Int)
  domReadyWithinTimeout : Bool := true
  now : Int := 0

/-- The action names CDPReplayer.applyAction dispatches on. -/
def knownActionNames : List String :=
  ["navigate", "click", "dblclick", "hover", "type", "press", "scroll", "drag", "highlight"]

/-- The predicate names CDPReplayer.waitPredicate dispatches on. -/
def knownPredicateNames : List String :=
  ["urlChanged", "domAdded", "textChanged", "ariaLiveUpdated", "layoutStable"]

/-- CDPReplayer.mouseClick: one move, then press/release pairs. -/
def mouseClickCmds (clicks : Nat) : List Cmd :=
  Cmd.send "Input.dispatchMouseEvent" ::
    List.flatten (List.replicate clicks
      [Cmd.send "Input.dispatchMouseEvent", Cmd.send "Input.dispatchMouseEvent"])

/-- The drag/highlight end point: toSelector when present, else literal
(toX, toY) when both are present. -/
def dragEndPoint (env : ActionEnv) (a : ActionData) : Option (Int × Int) :=
  match a.toSelector with
  | some s => env.resolveCenter s
  | none =>
    match a.toX, a.toY with
    | some x, some y => some (x, y)
    | _, _ => none

/-- CDPReplayer.applyAction: dispatch over action.name; on success returns
the issued commands and the updated last-action state; element-resolution
failures raise the source's error strings; unknown names fall through to a
no-op that issues nothing and leaves the state unchanged. -/
def applyAction (st : ReplayerState) (env : ActionEnv) (step : ActionStep) :
    Except String (List Cmd × ReplayerState) :=
  let a := step.action
  let upd : ReplayerState :=
    { lastActionName := some a.name
      lastActionSelectorRaw := some step.selector.selector
      lastActionTs := some env.now }
  if a.name = "navigate" then
    if env.domReadyWithinTimeout then
      .ok ([Cmd.send "Page.navigate", Cmd.evalJs "document.readyState"], upd)
    else .error "waitUntil: timeout"
  else if a.name = "click" ∨ a.name = "dblclick" then
    match env.resolveCenter step.selector with
    | none => .error "Element not found for click"
    | some _ => .ok (mouseClickCmds (if a.name = "dblclick" then 2 else 1), upd)
  else if a.name = "hover" then
    match env.resolveCenter step.selector with
    | none => .error "Element not found for hover"
    | some _ => .ok ([Cmd.send "Input.dispatchMouseEvent", Cmd.sleepMs 120], upd)
  else if a.name = "type" then
    match env.resolveCenter step.selector with
    | none => .error "Element not found for type"
    | some _ =>
      let prevTs := st.lastActionTs.getD 0
      let sameTarget :=
        st.lastActionSelectorRaw ≠ none ∧ st.lastActionSelectorRaw ≠ some "" ∧
          st.lastActionSelectorRaw = some step.selector.selector
      let recent := env.now - prevTs < 2000
      let shouldFocus :=
        ¬(sameTarget ∧ recent ∧
          (st.lastActionName = some "type" ∨ st.lastActionName = some "click"))
      let focusCmds := if shouldFocus then mouseClickCmds 1 else []
      let insertCmds :=
        if step.redacted ≠ some true ∧ (match a.text with | some t => t ≠ "" | none => false) = true then
          [Cmd.send "Input.insertText"]
        else []
      .ok (focusCmds ++ insertCmds, upd)
  else if a.name = "press" then
    .ok ((if a.key = some "Enter" then
      [Cmd.send "Input.dispatchKeyEvent", Cmd.send "Input.dispatchKeyEvent"] else []), upd)
  else if a.name = "scroll" then
    .ok ([Cmd.evalJs "window.scrollBy"], upd)
  else if a.name = "drag" then
    match env.resolveCenter step.selector, dragEndPoint env a with
    | some _, some _ =>
      .ok ([Cmd.send "Input.dispatchMouseEvent", Cmd.send "Input.dispatchMouseEvent"] ++
        List.flatten (List.replicate 6 [Cmd.send "Input.dispatchMouseEvent", Cmd.sleepMs 16]) ++
        [Cmd.send "Input.dispatchMouseEvent"], upd)
    | _, _ => .error "Drag endpoints not found"
  else if a.name = "highlight" then
    match env.resolveCenter step.selector, dragEndPoint env a with
    | some _, some _ =>
      .ok ([Cmd.send "Input.dispatchMouseEvent", Cmd.send "Input.dispatchMouseEvent",
            Cmd.send "Input.dispatchMouseEvent", Cmd.send "Input.dispatchMouseEvent"], upd)
    | _, _ => .error "Highlight endpoints not found"
  else .ok ([], st)

/-- CDPReplayer.formatStepError. -/
def formatStepError (s : Step) (err : String) : String :=
  let base := if err = "" then "Unknown error" else err
  match s with
  | .action a =>
    "Action " ++ a.action.name ++ " failed" ++
      (if a.selector.selector ≠ "" then " on " ++ jsonStringify a.selector.selector else "") ++
      ": " ++ base
  | .wait w =>
    let sel := (w.container.map BuiltSelector.selector).getD ""
    "Wait for " ++ friendlyPredicateName w.predicate ++ " failed" ++
      (if sel ≠ "" then " in " ++ jsonStringify sel else "") ++ ": " ++ base
  | .other _ => base

/-- The capped scaled think time of play: min(1500, floor(max(0, Δ) * thinkScale)). -/
def sleepMsCalc (prevTs ts : Int) (scale : Rat) : Int :=
  min 1500 (Int.floor (((max 0 (ts - prevTs) : Int) : Rat) * scale))

/-- Result of one play run: the steps the loop entered, the sleep calls
performed (sleep is only called when the computed amount is positive), the
console.error log of continued-past action failures, and the error play
rejects with, if any. -/
structure PlayOutcome where
  executed : List Step
  sleeps : List Nat
  errorLog : List String
  failure : Option String
deriving DecidableEq, Repr

/-- CDPReplayer.play's loop, parameterized by the outcome of applying each
action (execA) and each predicate wait (execW): think-time sleep before
every step but the first, then the step; action failures are logged through
formatStepError and the loop continues; wait failures abort with the
formatted message; steps of unknown kind run nothing. -/
def playGo (execA : ActionStep → Except String Unit) (execW : WaitStep → Except String Unit)
    (scale : Rat) : Option Int → List Step → PlayOutcome
  | _, [] => { executed := [], sleeps := [], errorLog := [], failure := none }
  | prev, s :: rest =>
    let sl : List Nat :=
      match prev with
      | none => []
      | some p =>
        let ms := sleepMsCalc p s.timestamp scale
        if 0 < ms then [ms.toNat] else []
    let stepRes : Except String Unit :=
      match s with
      | .action a => execA a
      | .wait w => execW w
      | .other _ => .ok ()
    match stepRes with
    | .ok _ =>
      let r := playGo execA execW scale (some s.timestamp) rest
      { executed := s :: r.executed, sleeps := sl ++ r.sleeps
        errorLog := r.errorLog, failure := r.failure }
    | .error e =>
      match s with
      | .action _ =>
        let r := playGo execA execW scale (some s.timestamp) rest
        { executed := s :: r.executed, sleeps := sl ++ r.sleeps
          errorLog := formatStepError s e :: r.errorLog, failure := r.failure }
      | _ =>
        { executed := [s], sleeps := sl, errorLog := [], failure := some (formatStepError s e) }

/-- CDPReplayer.play on a whole trace (previousTs starts undefined). -/
def play (execA : ActionStep → Except String Unit) (execW : WaitStep → Except String Unit)
    (trace : TracePayload) (scale : Rat) : PlayOutcome :=
  playGo execA execW scale none trace.steps

/-- The think-time sleeps a trace's adjacent timestamp pairs prescribe. -/
def pairSleeps (scale : Rat) : List Step → List Nat
  | a :: b :: rest =>
    (let ms := sleepMsCalc a.timestamp b.timestamp scale
     if 0 < ms then [ms.toNat] else []) ++ pairSleeps scale (b :: rest)
  | _ => []

/-- The sleep performed before the first processed step, given the
previous-timestamp register. -/
def leadSleep (scale : Rat) (prev : Option Int) (steps : List Step) : List Nat :=
  match prev, steps with
  | some p, s :: _ =>
    if 0 < sleepMsCalc p s.timestamp scale then [(sleepMsCalc p s.timestamp scale).toNat] else []
  | _, _ => []

theorem strAppend_empty (s : String) : s ++ "" = s := by
  cases s; exact congrArg String.mk (List.append_nil _)

theorem strContains_of_append (a t b : String) : StrContains (a ++ t ++ b) t :=
  ⟨a, b, strAppend_assoc a t b⟩

theorem strContains_suffix (a t : String) : StrContains (a ++ t) t :=
  ⟨a, "", by rw [strAppend_empty]⟩

theorem strContains_append_right (s u t : String) (h : StrContains s t) :
    StrContains (s ++ u) t := by
  obtain ⟨x, y, hxy⟩ := h
  exact ⟨x, y ++ u, by rw [hxy, strAppend_assoc x (t ++ y) u, strAppend_assoc t y u]⟩

/-- C4: play's failure policy. When applying an action step throws, the
formatted error is logged (console.error) and the loop continues: the
remaining steps are processed exactly as they would be, and the final
outcome is that of the rest of the trace. When a predicate wait fails, play
throws the formatted error: the failing wait is the last step entered and
nothing after it runs. -/
theorem c4_action_errors_continue_wait_errors_abort
    (execA : ActionStep → Except String Unit) (execW : WaitStep → Except String Unit)
    (scale : Rat) (prev : Option Int) (a : ActionStep) (w : WaitStep)
    (rest : List Step) (ea ew : String)
    (ha : execA a = .error ea) (hw : execW w = .error ew) :
    ((playGo execA execW scale prev (Step.action a :: rest)).executed =
        Step.action a :: (playGo execA execW scale (some a.timestamp) rest).executed ∧
      (playGo execA execW scale prev (Step.action a :: rest)).failure =
        (playGo execA execW scale (some a.timestamp) rest).failure ∧
      (playGo execA execW scale prev (Step.action a :: rest)).errorLog =
        formatStepError (Step.action a) ea ::
          (playGo execA execW scale (some a.timestamp) rest).errorLog) ∧
    ((playGo execA execW scale prev (Step.wait w :: rest)).executed = [Step.wait w] ∧
      (playGo execA execW scale prev (Step.wait w :: rest)).failure =
        some (formatStepError (Step.wait w) ew) ∧
      (playGo execA execW scale prev (Step.wait w :: rest)).errorLog = []) := by
  constructor
  · simp [playGo, ha, Step.timestamp]
  · simp [playGo, hw, Step.timestamp]

/-- Witness for C4 at a concrete trace: an always-failing executor on one
action step and one wait step followed by one more step. -/
theorem c4_witness_concrete :
    ((fun (_ : ActionStep) => (Except.error "boom" : Except String Unit))
        { action := { name := "click" }, selector := demoSel, timestamp := 10 } =
      Except.error "boom") ∧
    ((fun (_ : WaitStep) => (Except.error "slow" : Except String Unit))
        { predicate := "domAdded", timestamp := 20 } = Except.error "slow") ∧
    ((playGo (fun _ => Except.error "boom") (fun _ => Except.error "slow") 1 none
        (Step.action { action := { name := "click" }, selector := demoSel, timestamp := 10 } ::
          [Step.other 30])).executed =
      Step.action { action := { name := "click" }, selector := demoSel, timestamp := 10 } ::
        (playGo (fun _ => Except.error "boom") (fun _ => Except.error "slow") 1 (some 10)
          [Step.other 30]).executed) ∧
    ((playGo (fun _ => Except.error "boom") (fun _ => Except.error "slow") 1 none
        (Step.wait { predicate := "domAdded", timestamp := 20 } :: [Step.other 30])).executed =
      [Step.wait { predicate := "domAdded", timestamp := 20 }]) ∧
    ((playGo (fun _ => Except.error "boom") (fun _ => Except.error "slow") 1 none
        (Step.wait { predicate := "domAdded", timestamp := 20 } :: [Step.other 30])).failure =
      some (formatStepError (Step.wait { predicate := "domAdded", timestamp := 20 }) "slow")) := by
  refine ⟨rfl, rfl, ?_, ?_, ?_⟩
  · exact (c4_action_errors_continue_wait_errors_abort _ _ 1 none _
      { predicate := "domAdded", timestamp := 20 } [Step.other 30] "boom" "slow" rfl rfl).1.1
  · exact (c4_action_errors_continue_wait_errors_abort _ _ 1 none
      { action := { name := "click" }, selector := demoSel, timestamp := 10 } _
      [Step.other 30] "boom" "slow" rfl rfl).2.1
  · exact (c4_action_errors_continue_wait_errors_abort _ _ 1 none
      { action := { name := "click" }, selector := demoSel, timestamp := 10 } _
      [Step.other 30] "boom" "slow" rfl rfl).2.2.1

theorem pairSleeps_cons (scale : Rat) (s : Step) (rest : List Step) :
    pairSleeps scale (s :: rest) = leadSleep scale (some s.timestamp) rest ++ pairSleeps scale rest := by
  cases rest <;> simp [pairSleeps, leadSleep]

theorem playGo_sleeps_all_ok (execA : ActionStep → Except String Unit)
    (execW : WaitStep → Except String Unit) (scale : Rat)
    (hA : ∀ x, execA x = .ok ()) (hW : ∀ x, execW x = .ok ()) :
    ∀ (steps : List Step) (prev : Option Int),
      (playGo execA execW scale prev steps).sleeps =
        leadSleep scale prev steps ++ pairSleeps scale steps := by
  intro steps
  induction steps with
  | nil => intro prev; cases prev <;> simp [playGo, pairSleeps, leadSleep]
  | cons s rest ih =>
    intro prev
    have hstep :
        (match s with
         | Step.action a => execA a
         | Step.wait w => execW w
         | Step.other _ => Except.ok ()) = Except.ok () := by
      cases s <;> simp [hA, hW]
    rw [pairSleeps_cons]
    cases prev with
    | none =>
      simp only [playGo, hstep, leadSleep]
      rw [ih (some s.timestamp)]
      simp [leadSleep]
    | some p =>
      simp only [playGo, hstep, leadSleep]
      rw [ih (some s.timestamp)]
      cases hms : decide (0 < sleepMsCalc p s.timestamp scale) <;>
        simp_all [leadSleep, List.append_assoc]

/-- Two press-Enter action steps recorded 2000 ms apart. -/
def demoTwoSteps : List Step :=
  [Step.action { action := { name := "press", key := some "Enter" }, selector := demoSel,
                 timestamp := 1000 },
   Step.action { action := { name := "press", key := some "Enter" }, selector := demoSel,
                 timestamp := 3000 }]

theorem pairSleeps_scale_zero (l : List Step) : pairSleeps 0 l = [] := by
  induction l with
  | nil => rfl
  | cons s rest ih =>
    cases rest with
    | nil => rfl
    | cons b bs =>
      have hz : sleepMsCalc s.timestamp b.timestamp 0 = 0 := by
        simp [sleepMsCalc]
      rw [pairSleeps_cons, ih, leadSleep]
      simp [hz]

/-- C5: think-time model of play. With every step applying cleanly, the
sleep calls play performs are exactly the per-adjacent-pair amounts
min(1500, floor(max(0, Δts) * thinkScale)) — a sleep call happens only when
the amount is positive; at a 2000 ms gap and thinkScale 1 the amount is
exactly the 1500 cap, and at thinkScale 0 every amount is 0, so no sleep
call is made at all. -/
theorem c5_think_time_model (execA : ActionStep → Except String Unit)
    (execW : WaitStep → Except String Unit) (scale : Rat) (steps : List Step)
    (hA : ∀ x, execA x = .ok ()) (hW : ∀ x, execW x = .ok ()) :
    (playGo execA execW scale none steps).sleeps = pairSleeps scale steps ∧
    (∀ p : Int, sleepMsCalc p (p + 2000) 1 = 1500) ∧
    (∀ p t : Int, sleepMsCalc p t 0 = 0) ∧
    (∀ l : List Step, (playGo execA execW 0 none l).sleeps = []) := by
  refine ⟨?_, ?_, ?_, ?_⟩
  · rw [playGo_sleeps_all_ok execA execW scale hA hW steps none]
    cases steps <;> simp [leadSleep]
  · intro p
    have hd : p + 2000 - p = (2000 : Int) := by ring
    simp [sleepMsCalc, hd]
  · intro p t
    simp [sleepMsCalc]
  · intro l
    rw [playGo_sleeps_all_ok execA execW 0 hA hW l none, pairSleeps_scale_zero]
    cases l <;> simp [leadSleep]

/-- Witness for C5: the two-steps-2000ms-apart trace sleeps exactly once
for 1500 ms at thinkScale 1, and not at all at thinkScale 0. -/
theorem c5_witness_cap_and_zero :
    (playGo (fun _ => Except.ok ()) (fun _ => Except.ok ()) 1 none demoTwoSteps).sleeps =
      pairSleeps 1 demoTwoSteps ∧
    pairSleeps 1 demoTwoSteps = [1500] ∧
    (playGo (fun _ => Except.ok ()) (fun _ => Except.ok ()) 0 none demoTwoSteps).sleeps = [] :=
  ⟨(c5_think_time_model _ _ 1 demoTwoSteps (fun _ => rfl) (fun _ => rfl)).1,
   by norm_num [demoTwoSteps, pairSleeps, sleepMsCalc, Step.timestamp]; rfl,
   (c5_think_time_model _ _ 0 demoTwoSteps (fun _ => rfl) (fun _ => rfl)).2.2.2 demoTwoSteps⟩

/-- waitPredicate reaches its 30 s ceiling without observing its condition:
the observation outcome for the step's predicate is negative, and no
skip short-circuit (contenteditable domAdded container, or textChanged
right after a type into the identical container) applies. -/
def ReachesCeiling (st : ReplayerState) (env : WaitEnv) (step : WaitStep) : Prop :=
  (step.predicate = "urlChanged" ∧ env.urlChangedWithin = false) ∨
  (step.predicate = "domAdded" ∧ isContentEditableContainer env.resolvedContainer = false ∧
    env.domAddedWithin = false) ∨
  (step.predicate = "textChanged" ∧
    ¬(st.lastActionName = some "type" ∧
      (step.container.map BuiltSelector.selector).getD "" ≠ "" ∧
      some ((step.container.map BuiltSelector.selector).getD "") = st.lastActionSelectorRaw) ∧
    env.textObs.changed = false) ∨
  (step.predicate = "ariaLiveUpdated" ∧ env.ariaLiveWithin = false) ∨
  (step.predicate = "layoutStable" ∧ env.layoutStableWithin = false)

instance (st : ReplayerState) (env : WaitEnv) (step : WaitStep) :
    Decidable (ReachesCeiling st env step) := by
  unfold ReachesCeiling; infer_instance

/-- C7: whenever a predicate wait reaches the 30-second ceiling without its
condition being observed, waitPredicate raises an error whose message
contains the predicate's human-readable name — the name map being
urlChanged ↦ "navigation", domAdded ↦ "content to appear", textChanged ↦
"text update", ariaLiveUpdated ↦ "announcement", layoutStable ↦ "page to
settle" — and, when a container with a nonempty selector is present, also
contains " in container: " followed by the JSON rendering of its selector
(the selector itself, quoted, when it needs no escaping). -/
theorem c7_timeout_errors_are_descriptive (st : ReplayerState) (env : WaitEnv)
    (step : WaitStep) (h : ReachesCeiling st env step) :
    (∃ msg, waitPredicate st env step = .error msg ∧
      StrContains msg (friendlyPredicateName step.predicate) ∧
      (∀ c, step.container = some c → c.selector ≠ "" →
        StrContains msg (" in container: " ++ jsonStringify c.selector))) ∧
    friendlyPredicateName "urlChanged" = "navigation" ∧
    friendlyPredicateName "domAdded" = "content to appear" ∧
    friendlyPredicateName "textChanged" = "text update" ∧
    friendlyPredicateName "ariaLiveUpdated" = "announcement" ∧
    friendlyPredicateName "layoutStable" = "page to settle" := by
  refine ⟨?_, rfl, rfl, rfl, rfl, rfl⟩
  have hbase : ∀ t : Nat, StrContains (friendlyWaitTimeoutMessage step t)
      (friendlyPredicateName step.predicate) := by
    intro t
    exact strContains_of_append _ _ _
  have hwhere : ∀ t : Nat, ∀ c, step.container = some c → c.selector ≠ "" →
      StrContains (friendlyWaitTimeoutMessage step t)
        (" in container: " ++ jsonStringify c.selector) := by
    intro t c hc hsel
    have hw : waitWhereSel step = " in container: " ++ jsonStringify c.selector := by
      simp [waitWhereSel, hc, hsel]
    unfold friendlyWaitTimeoutMessage
    rw [hw]
    exact strContains_suffix _ _
  rcases h with ⟨hp, hobs⟩ | ⟨hp, hce, hobs⟩ | ⟨hp, hsc, hobs⟩ | ⟨hp, hobs⟩ | ⟨hp, hobs⟩
  · refine ⟨_, ?_, hbase 30000, fun c hc hsel => hwhere 30000 c hc hsel⟩
    simp [waitPredicate, hp, hobs]
  · refine ⟨_, ?_, hbase 30000, fun c hc hsel => hwhere 30000 c hc hsel⟩
    simp [waitPredicate, hp, hce, hobs]
  · refine ⟨friendlyWaitTimeoutMessage step 30000 ++ ". Current text: " ++
        jsonStringify (strTake env.textObs.currentText 160) ++
        (if strTake env.textObs.currentHtml 160 ≠ "" then
          ", html: " ++ jsonStringify (strTake env.textObs.currentHtml 160) else ""),
      ?_, ?_, ?_⟩
    · simp [waitPredicate, hp, hsc, hobs]
    · exact strContains_append_right _ _ _ (strContains_append_right _ _ _
        (strContains_append_right _ _ _ (hbase 30000)))
    · intro c hc hsel
      exact strContains_append_right _ _ _ (strContains_append_right _ _ _
        (strContains_append_right _ _ _ (hwhere 30000 c hc hsel)))
  · refine ⟨_, ?_, hbase 30000, fun c hc hsel => hwhere 30000 c hc hsel⟩
    simp [waitPredicate, hp, hobs]
  · refine ⟨_, ?_, hbase 30000, fun c hc hsel => hwhere 30000 c hc hsel⟩
    simp [waitPredicate, hp, hobs]

/-- The domAdded wait step scoped to a concrete container, used by the C7
witness. -/
def demoWaitStep : WaitStep :=
  { predicate := "domAdded",
    container := some { selector := "#results", strategy := "css" },
    timestamp := 0 }

/-- Witness for C7: a domAdded wait on a container that never changes within
the ceiling produces the descriptive error. -/
theorem c7_witness_domAdded_timeout :
    ReachesCeiling {} {} demoWaitStep ∧
    ((∃ msg, waitPredicate {} {} demoWaitStep = .error msg ∧
      StrContains msg (friendlyPredicateName demoWaitStep.predicate) ∧
      (∀ c, demoWaitStep.container = some c → c.selector ≠ "" →
        StrContains msg (" in container: " ++ jsonStringify c.selector))) ∧
    friendlyPredicateName "urlChanged" = "navigation" ∧
    friendlyPredicateName "domAdded" = "content to appear" ∧
    friendlyPredicateName "textChanged" = "text update" ∧
    friendlyPredicateName "ariaLiveUpdated" = "announcement" ∧
    friendlyPredicateName "layoutStable" = "page to settle") :=
  ⟨by decide, c7_timeout_errors_are_descriptive {} {} demoWaitStep (by decide)⟩

deriving instance DecidableEq for Except

/-- A contenteditable (ProseMirror-style) container element. -/
def demoEditableEl : PageElemProps :=
  { isContentEditableProp := true, contenteditableAttr := some "true",
    width := 600, height := 400, idAttr := "prompt-textarea" }

/-- C8 counterexample: a domAdded wait whose recorded container resolves to
a contenteditable element is neither skipped nor escalated to the document
root, even when matching content IS added within the ceiling (domAddedWithin
true): the in-page function strings of this path (isContentEditableContainer
and waitForDomAddedObserver) contain the TypeScript-only expression
(el as any) and never parse in the page, so Runtime.callFunctionOn rejects,
isContentEditableContainer reports false for every container, and the branch
raises the friendly 30 s timeout error instead of succeeding. -/
theorem c8_counterexample_contenteditable_neither_skipped_nor_escalated :
    isContentEditableContainer (some demoEditableEl) = false ∧
    waitPredicate {} { resolvedContainer := some demoEditableEl, domAddedWithin := true }
      { predicate := "domAdded",
        container := some { selector := "#prompt-textarea", strategy := "css" },
        timestamp := 0 } =
      .error (friendlyWaitTimeoutMessage
        { predicate := "domAdded",
          container := some { selector := "#prompt-textarea", strategy := "css" },
          timestamp := 0 } 30000) := by decide

/-- A sentinel overlay wrapper container. -/
def demoOverlayEl : PageElemProps :=
  { width := 800, height := 600, idAttr := "overlay-backdrop" }

/-- C8 (amended): the domAdded wait path is dead on arrival — the in-page
function strings of both isContentEditableContainer and
waitForDomAddedObserver contain (el as any), a SyntaxError in plain
JavaScript, so neither ever runs in the page. isContentEditableContainer
reports false for every container (contenteditable or not), no domAdded wait
is ever skipped, the observer and its document-root escalation for
contenteditable/sentinel/implausibly-small containers never execute, and
every replayed domAdded wait — whatever its container resolves to and
whether or not content is added — fails with the friendly 30 s timeout
message. -/
theorem c8_domadded_always_times_out (st : ReplayerState) (env : WaitEnv)
    (w : WaitStep) (hpred : w.predicate = "domAdded") :
    isContentEditableContainer env.resolvedContainer = false ∧
    waitPredicate st env w = .error (friendlyWaitTimeoutMessage w 30000) := by
  refine ⟨rfl, ?_⟩
  simp [waitPredicate, hpred, isContentEditableContainer]

/-- Witness for C8: the amended behavior at two concrete containers — a
contenteditable editor (with content actually added within the ceiling) and
a sentinel overlay wrapper — both end in the friendly timeout error, never a
skip or a wait against the document root. -/
theorem c8_witness_editable_and_overlay_time_out :
    (isContentEditableContainer (some demoEditableEl) = false ∧
      waitPredicate {} { resolvedContainer := some demoEditableEl, domAddedWithin := true }
        { predicate := "domAdded", timestamp := 0 } =
        .error (friendlyWaitTimeoutMessage { predicate := "domAdded", timestamp := 0 } 30000)) ∧
    (isContentEditableContainer (some demoOverlayEl) = false ∧
      waitPredicate {} { resolvedContainer := some demoOverlayEl }
        { predicate := "domAdded", timestamp := 0 } =
        .error (friendlyWaitTimeoutMessage { predicate := "domAdded", timestamp := 0 } 30000)) :=
  ⟨c8_domadded_always_times_out {}
      { resolvedContainer := some demoEditableEl, domAddedWithin := true }
      { predicate := "domAdded", timestamp := 0 } rfl,
   c8_domadded_always_times_out {} { resolvedContainer := some demoOverlayEl }
      { predicate := "domAdded", timestamp := 0 } rfl⟩

/-- C10: a step whose action.name is none of the nine known action variants,
or whose predicate is none of the five known predicate names, is silently
skipped: applyAction returns ok with no commands and unchanged state,
waitPredicate returns ok, and play (driven by exactly those two routines)
proceeds past both steps into the rest of the trace. -/
theorem c10_unknown_steps_are_noops (st : ReplayerState) (env : ActionEnv)
    (stw : ReplayerState) (wenv : WaitEnv) (a : ActionStep) (w : WaitStep)
    (ha : a.action.name ∉ knownActionNames) (hw : w.predicate ∉ knownPredicateNames) :
    applyAction st env a = .ok ([], st) ∧
    waitPredicate stw wenv w = .ok () ∧
    (∀ (scale : Rat) (prev : Option Int) (rest : List Step),
      (playGo (fun x => (applyAction st env x).map (fun _ => ()))
          (fun x => waitPredicate stw wenv x) scale prev
          (Step.action a :: Step.wait w :: rest)).executed =
        Step.action a :: Step.wait w ::
          (playGo (fun x => (applyAction st env x).map (fun _ => ()))
            (fun x => waitPredicate stw wenv x) scale (some w.timestamp) rest).executed ∧
      (playGo (fun x => (applyAction st env x).map (fun _ => ()))
          (fun x => waitPredicate stw wenv x) scale prev
          (Step.action a :: Step.wait w :: rest)).failure =
        (playGo (fun x => (applyAction st env x).map (fun _ => ()))
          (fun x => waitPredicate stw wenv x) scale (some w.timestamp) rest).failure) := by
  simp only [knownActionNames, knownPredicateNames, List.mem_cons, List.not_mem_nil,
    or_false, not_or] at ha hw
  obtain ⟨ha1, ha2, ha3, ha4, ha5, ha6, ha7, ha8, ha9⟩ := ha
  obtain ⟨hw1, hw2, hw3, hw4, hw5⟩ := hw
  have hact : applyAction st env a = .ok ([], st) := by
    simp [applyAction, ha1, ha2, ha3, ha4, ha5, ha6, ha7, ha8, ha9]
  have hwait : waitPredicate stw wenv w = .ok () := by
    simp [waitPredicate, hw1, hw2, hw3, hw4, hw5]
  refine ⟨hact, hwait, ?_⟩
  intro scale prev rest
  constructor <;>
    simp [playGo, hact, hwait, Except.map, Step.timestamp]

/-- Witness for C10: a trace holding a "swipe" action and a "networkIdle"
wait runs to completion with nothing executed for either. -/
theorem c10_witness_swipe_networkIdle :
    ((("swipe" : String) ∉ knownActionNames) ∧ (("networkIdle" : String) ∉ knownPredicateNames)) ∧
    applyAction {} { resolveCenter := fun _ => none }
      { action := { name := "swipe" }, selector := demoSel, timestamp := 1 } = .ok ([], {}) ∧
    waitPredicate {} {} { predicate := "networkIdle", timestamp := 2 } = .ok () :=
  ⟨⟨by decide, by decide⟩,
   (c10_unknown_steps_are_noops {} { resolveCenter := fun _ => none } {} {}
     { action := { name := "swipe" }, selector := demoSel, timestamp := 1 }
     { predicate := "networkIdle", timestamp := 2 } (by decide) (by decide)).1,
   (c10_unknown_steps_are_noops {} { resolveCenter := fun _ => none } {} {}
     { action := { name := "swipe" }, selector := demoSel, timestamp := 1 }
     { predicate := "networkIdle", timestamp := 2 } (by decide) (by decide)).2.1⟩

/-! ### Selector resolver (selector.ts)

The page tree is a rose tree of element and text nodes; an element in
context is a node plus its ancestor chain (parent node and index of the
child we came from, innermost first). The claims concern elements of an
ordinary top-level document, where buildShadowChain and buildFrameChain
both produce empty chains, so the zipper carries no shadow/frame data. -/

/-- A DOM node: an element (tag name as the DOM reports it, attribute map,
child nodes) or a text node. -/
inductive DomNode where
  | elem (tagName : String) (attrs : List (String × String)) (children : List DomNode)
  | textNode (s : String)

mutual

/-- Structural node equality (kernel-reducible, for concrete witnesses). -/
def domNodeBeq : DomNode → DomNode → Bool
  | .textNode a, .textNode b => a == b
  | .elem t1 a1 c1, .elem t2 a2 c2 => t1 == t2 && a1 == a2 && domNodeListBeq c1 c2
  | _, _ => false

/-- Pointwise list version of domNodeBeq. -/
def domNodeListBeq : List DomNode → List DomNode → Bool
  | [], [] => true
  | x :: xs, y :: ys => domNodeBeq x y && domNodeListBeq xs ys
  | _, _ => false

end

instance : BEq DomNode := ⟨domNodeBeq⟩

def DomNode.isElem : DomNode → Bool
  | .elem _ _ _ => true
  | .textNode _ => false

def DomNode.tagNameD : DomNode → String
  | .elem t _ _ => t
  | .textNode _ => ""

def DomNode.childrenD : DomNode → List DomNode
  | .elem _ _ cs => cs
  | .textNode _ => []

/-- Element.getAttribute (null for text nodes / missing attributes). -/
def getAttr : DomNode → String → Option String
  | .elem _ attrs _, name => lookupAttr attrs name
  | .textNode _, _ => none

mutual

/-- Node.textContent: concatenated text of the subtree. -/
def DomNode.textContent : DomNode → String
  | .textNode s => s
  | .elem _ _ cs => textContentList cs

/-- textContent over a child list. -/
def textContentList : List DomNode → String
  | [] => ""
  | c :: cs => DomNode.textContent c ++ textContentList cs

end

/-- Split into maximal nonempty non-whitespace runs (DOMTokenList token
parsing of the class attribute). -/
def splitWsAux : List Char → List Char → List String
  | [], acc => if acc.isEmpty then [] else [⟨acc.reverse⟩]
  | c :: rest, acc =>
    if c.isWhitespace then
      if acc.isEmpty then splitWsAux rest [] else ⟨acc.reverse⟩ :: splitWsAux rest []
    else splitWsAux rest (c :: acc)

/-- Keep the first occurrence of each string (DOMTokenList ordered set). -/
def dedupKeepFirst : List String → List String :=
  go []
where
  go (seen : List String) : List String → List String
    | [] => []
    | x :: xs => if seen.contains x then go seen xs else x :: go (x :: seen) xs

/-- Element.classList: whitespace-separated class tokens, duplicates
removed. -/
def classListOf (n : DomNode) : List String :=
  dedupKeepFirst (splitWsAux ((getAttr n "class").getD "").data [])

/-- JS a || b over two optional attribute strings: the first present and
nonempty wins. -/
def jsOrOpt (a b : Option String) : Option String :=
  match a with
  | some s => if s ≠ "" then some s else b
  | none => b

/-- selector.ts truncate (default max 120). -/
def truncate (text : String) (maxLen : Nat := 120) : String :=
  if text.data.length > maxLen then strTake text (maxLen - 1) ++ "…" else text

/-- selector.ts cssEsc: escape backslashes, then double quotes. -/
def cssEsc (value : String) : String :=
  joinAll (value.data.map fun c =>
    if c = '\\' then "\\\\" else if c = '"' then "\\\"" else String.singleton c)

/-- The implied role of common tags (second half of roleHintFor). -/
def tagImplicitRole (n : DomNode) : Option String :=
  let tag := jsToLower n.tagNameD
  if tag = "button" then some "button"
  else if tag = "a" then (if (getAttr n "href").isSome then some "link" else none)
  else if tag = "input" then
    let ty := jsToLower (jsOrDefault (getAttr n "type") "text")
    if ty = "checkbox" then some "checkbox"
    else if ty = "radio" then some "radio"
    else if ty = "submit" ∨ ty = "button" then some "button"
    else some "textbox"
  else if tag = "select" then some "combobox"
  else if tag = "textarea" then some "textbox"
  else none

/-- selector.ts roleHintFor: an explicit nonblank role attribute wins, else
the tag mapping. -/
def roleHintFor (n : DomNode) : Option String :=
  match (getAttr n "role").map jsTrim with
  | some t => if t ≠ "" then some t else tagImplicitRole n
  | none => tagImplicitRole n

/-- selector.ts textHintFor: aria-label/aria-labelledby first, else the
trimmed and whitespace-collapsed text content; both truncated. -/
def textHintFor (n : DomNode) : Option String :=
  match (jsOrOpt (getAttr n "aria-label") (getAttr n "aria-labelledby")).map jsTrim with
  | some l =>
    if l ≠ "" then some (truncate l)
    else
      let text := collapseWs (jsTrim n.textContent)
      if text ≠ "" then some (truncate text) else none
  | none =>
    let text := collapseWs (jsTrim n.textContent)
    if text ≠ "" then some (truncate text) else none

/-- The .alt DOM property: reflects the alt attribute (default "") on the
element interfaces that define it, undefined elsewhere. -/
def altProp (n : DomNode) : Option String :=
  let tag := jsToLower n.tagNameD
  if tag = "img" ∨ tag = "area" ∨ tag = "input" then some ((getAttr n "alt").getD "")
  else none

/-- Last fallback of accessibleNameWithSource: trimmed, collapsed text
content. -/
def accessibleNameText (n : DomNode) : Option (String × String) :=
  let text := collapseWs (jsTrim n.textContent)
  if text ≠ "" then some (text, "text") else none

/-- title-attribute stage of accessibleNameWithSource. -/
def accessibleNameTitleText (n : DomNode) : Option (String × String) :=
  match getAttr n "title" with
  | some t =>
    if jsTrim t ≠ "" then some (jsTrim t, "title")
    else accessibleNameText n
  | none => accessibleNameText n

/-- alt-property stage of accessibleNameWithSource. -/
def accessibleNameAfterLabels (n : DomNode) : Option (String × String) :=
  match altProp n with
  | some alt =>
    if jsTrim alt ≠ "" then some (jsTrim alt, "alt")
    else accessibleNameTitleText n
  | none => accessibleNameTitleText n

/-- aria-labelledby stage of accessibleNameWithSource. -/
def accessibleNameRest (n : DomNode) : Option (String × String) :=
  match getAttr n "aria-labelledby" with
  | some lb =>
    if jsTrim lb ≠ "" then some (jsTrim lb, "aria-label")
    else accessibleNameAfterLabels n
  | none => accessibleNameAfterLabels n

/-- selector.ts accessibleNameWithSource (aria-labelledby simplified to an
aria-label source, as in the source). -/
def accessibleNameWithSource (n : DomNode) : Option (String × String) :=
  match getAttr n "aria-label" with
  | some a =>
    if jsTrim a ≠ "" then some (jsTrim a, "aria-label")
    else accessibleNameRest n
  | none => accessibleNameRest n

def DISALLOWED_ARIA_ROLES : List String := ["presentation", "none"]

def PREFERRED_ARIA_ROLES : List String :=
  ["button", "link", "checkbox", "radio", "switch", "menuitem", "option", "tab",
   "textbox", "combobox", "slider", "heading"]

/-- selector.ts buildAriaSelector: role + accessible name with stability
constraints, emitted in the pseudo syntax role=<role> name=<name>. -/
def buildAriaSelector (n : DomNode) : Option String :=
  match roleHintFor n, accessibleNameWithSource n with
  | some role, some (name, source) =>
    if DISALLOWED_ARIA_ROLES.contains role then none
    else
      let maxLen := if PREFERRED_ARIA_ROLES.contains role then 80 else 60
      if name.data.length > maxLen then none
      else if source = "text" ∧ name.data.length > 60 then none
      else some ("role=" ++ cssEsc role ++ " name=" ++ cssEsc name)
  | _, _ => none

/-- selector.ts buildAriaSelectorContains: same constraints, substring
marker name~= (its trailing `return null` is dead code). -/
def buildAriaSelectorContains (n : DomNode) : Option String :=
  match roleHintFor n, accessibleNameWithSource n with
  | some role, some (name, source) =>
    if DISALLOWED_ARIA_ROLES.contains role then none
    else
      let maxLen := if PREFERRED_ARIA_ROLES.contains role then 80 else 60
      if name.data.length > maxLen then none
      else if source = "text" ∧ name.data.length > 60 then none
      else some ("role=" ++ cssEsc role ++ " name~=" ++ cssEsc name)
  | _, _ => none

def DATA_TEST_ATTRS : List String := ["data-testid", "data-test", "data-qa"]

/-- selector.ts buildDataAttrSelector: first test-id attribute carrying a
truthy value, used verbatim. -/
def buildDataAttrSelector (n : DomNode) : Option String :=
  go DATA_TEST_ATTRS
where
  go : List String → Option String
    | [] => none
    | a :: rest =>
      match getAttr n a with
      | some v => if v ≠ "" then some ("[" ++ a ++ "=\"" ++ cssEsc v ++ "\"]") else go rest
      | none => go rest

def isAsciiLetter (c : Char) : Bool := ('A' ≤ c ∧ c ≤ 'Z') ∨ ('a' ≤ c ∧ c ≤ 'z')

def isAsciiDigit (c : Char) : Bool := '0' ≤ c ∧ c ≤ '9'

def isAlnum (c : Char) : Bool := isAsciiLetter c || isAsciiDigit c

def isHexDigitChar (c : Char) : Bool :=
  isAsciiDigit c || ('a' ≤ c ∧ c ≤ 'f') || ('A' ≤ c ∧ c ≤ 'F')

/-- Some k consecutive characters satisfying p occur (regex p{k,}). -/
def hasRun (p : Char → Bool) (k : Nat) (l : List Char) : Bool :=
  (List.range (l.length + 1)).any fun i =>
    ((l.drop i).take k).length == k && ((l.drop i).take k).all p

/-- The whole-string pattern /^[A-Za-z][A-Za-z0-9_-]*$/. -/
def idPatternOk : List Char → Bool
  | [] => false
  | c :: rest => isAsciiLetter c && rest.all fun d => isAlnum d || d == '-' || d == '_'

/-- Split on - and _ keeping empty segments. -/
def splitSegsAux : List Char → List Char → List (List Char)
  | [], acc => [acc.reverse]
  | c :: rest, acc =>
    if c == '-' || c == '_' then acc.reverse :: splitSegsAux rest [] else splitSegsAux rest (c :: acc)

/-- The regex /(?:^|[-_])[A-Za-z0-9]{4,}(?:[-_][A-Za-z0-9]{4,}){2,}$/ on a
string already known to match the id alphabet check: equivalent to having
at least three segments (separated on dash or underscore) with the last
three all at least four characters long (each matched segment is delimited by a separator or the
string's ends, and taking the minimal three-segment match suffices). -/
def multiSegmentHashLike (l : List Char) : Bool :=
  let segs := splitSegsAux l []
  segs.length ≥ 3 && (segs.drop (segs.length - 3)).all fun s => s.length ≥ 4

/-- selector.ts isIdStable. The final digit-density test compares
digits/length against the literal 0.35 in doubles; for the lengths allowed
here (at most 40) that equals the exact comparison 20·digits > 7·length. -/
def isIdStable (id : String) : Bool :=
  let trimmed := jsTrim id
  if trimmed = "" then false
  else if trimmed.data.length > 40 then false
  else if ¬ idPatternOk trimmed.data then false
  else if hasRun isAsciiDigit 3 trimmed.data || hasRun isHexDigitChar 5 trimmed.data then false
  else if multiSegmentHashLike trimmed.data then false
  else if 20 * trimmed.data.countP (fun c => isAsciiDigit c = true) > 7 * trimmed.data.length then false
  else true

/-- The id anchor of cssPart: a present, truthy, stable id. -/
def stableIdOf (n : DomNode) : Option String :=
  match getAttr n "id" with
  | some id => if id ≠ "" ∧ isIdStable id then some id else none
  | none => none

mutual

/-- Whether a subtree node (and its descendants) match the selector
tag.cls: tag names compared lowercased, the class matched against the
element's token list. -/
def countClassMatch (tag cls : String) : DomNode → Nat
  | .textNode _ => 0
  | .elem t attrs cs =>
    (if jsToLower t == tag &&
        (dedupKeepFirst (splitWsAux ((lookupAttr attrs "class").getD "").data [])).contains cls
      then 1 else 0) +
      countClassMatchList tag cls cs

/-- countClassMatch over a child list. -/
def countClassMatchList (tag cls : String) : List DomNode → Nat
  | [] => 0
  | c :: cs => countClassMatch tag cls c + countClassMatchList tag cls cs

end

/-- selector.ts pickStableClass: single class token, not dynamic-looking,
unique among the parent's querySelectorAll(tag.cls) matches (absent parent
gives the empty node list). -/
def pickStableClass (n : DomNode) (parent? : Option DomNode) : Option String :=
  match classListOf n with
  | [cls] =>
    if (cls.data.any isAsciiDigit) || cls.data.length > 30 then none
    else
      let tag := jsToLower n.tagNameD
      let matchCount :=
        match parent? with
        | some p => countClassMatchList tag cls p.childrenD
        | none => 0
      if matchCount == 1 then some (cssEsc cls) else none
  | _ => none

/-- One attribute part of buildStableAttributeSelector: present, truthy,
trimmed nonempty, short, without digit/hex runs and without guillemets. -/
def stableAttrPart (n : DomNode) (attr : String) : Option String :=
  match getAttr n attr with
  | none => none
  | some raw =>
    if raw = "" then none
    else
      let val := jsTrim raw
      if val = "" then none
      else if val.data.length > 40 then none
      else if hasRun isAsciiDigit 3 val.data || hasRun isHexDigitChar 5 val.data then none
      else if val.data.contains '«' || val.data.contains '»' then none
      else some ("[" ++ attr ++ "=\"" ++ cssEsc val ++ "\"]")

/-- The attribute preference list of buildStableAttributeSelector. -/
def STABLE_ATTRS : List String :=
  ["data-testid", "data-test", "data-qa", "type", "aria-label", "aria-haspopup", "role"]

/-- selector.ts buildStableAttributeSelector: lowercased tag plus each
retained attribute part, null when no attribute survived. -/
def buildStableAttributeSelector (n : DomNode) : Option String :=
  let tag := jsToLower n.tagNameD
  let parts := tag :: (STABLE_ATTRS.filterMap (stableAttrPart n))
  if parts.length ≤ 1 then none else some (joinAll parts)

/-- selector.ts nthOfTypeIndex: 1-based index of the node among its
element siblings of the same (raw) tag name; the node sits at child
position idx of its parent's child list. -/
def nthOfTypeIndex (tag : String) (parentChildren : List DomNode) (idx : Nat) : Nat :=
  ((parentChildren.take (idx + 1)).filter fun c => c.isElem && c.tagNameD == tag).length

/-- cssPart after the id-anchor branch: stable class, else stable
attributes, else tag:nth-of-type(i). -/
def cssPartNoId (n : DomNode) (parent? : Option (DomNode × Nat)) : String :=
  let tag := jsToLower n.tagNameD
  match pickStableClass n (parent?.map Prod.fst) with
  | some c => tag ++ "." ++ c
  | none =>
    match buildStableAttributeSelector n with
    | some s => s
    | none =>
      let i :=
        match parent? with
        | some (p, idx) => nthOfTypeIndex n.tagNameD p.childrenD idx
        | none => 1
      tag ++ ":nth-of-type(" ++ toString i ++ ")"

/-- selector.ts cssPart. -/
def cssPart (n : DomNode) (parent? : Option (DomNode × Nat)) : String :=
  match stableIdOf n with
  | some id => "#" ++ cssEsc id
  | none => cssPartNoId n parent?

/-- The upward walk of buildCompactCssSelector over the ancestor chain
(innermost parent first): parts in outer-to-inner order, stopping early
(and keeping only the anchor and the parts below it) at an id anchor; the
document element (empty remaining chain) is excluded. -/
def cssParts : DomNode → List (DomNode × Nat) → List String
  | _, [] => []
  | n, (p, i) :: rest =>
    let part := cssPart n (some (p, i))
    if jsStartsWith part "#" then [part]
    else cssParts p rest ++ [part]

/-- An element in context: the node and its ancestor chain, innermost
parent first, each with the child index the walk came from. For an element
of an ordinary top-level document the shadow and frame chains are empty. -/
structure Loc where
  node : DomNode
  anc : List (DomNode × Nat) := []

/-- The ancestor chain is consistent: each parent really has the node at
the recorded child index. -/
def ancChainOk : DomNode → List (DomNode × Nat) → Bool
  | _, [] => true
  | n, (p, i) :: rest => (p.childrenD.get? i == some n) && ancChainOk p rest

/-- selector.ts buildCompactCssSelector for a plain-document element (the
Document branch never re-adds the stop element). -/
def buildCompactCssSelector (loc : Loc) : String :=
  joinSep " > " (cssParts loc.node loc.anc)

/-- selector.ts finalize. -/
def finalize (selector strategy : String) (target : DomNode) : BuiltSelector :=
  { selector := selector
    strategy := strategy
    shadowChain := []
    frameChain := []
    textHint := textHintFor target
    roleHint := roleHintFor target }

/-- selector.ts buildSelector for a plain-document element: ARIA role+name
first (with a contains-variant alternative), then test-id attributes, then
the compact CSS chain. -/
def buildSelector (loc : Loc) : BuiltSelector :=
  let target := loc.node
  match buildAriaSelector target with
  | some aria =>
    let built := finalize aria "aria" target
    { built with
        nameMatch := some "exact"
        alternatives :=
          match buildAriaSelectorContains target with
          | some ac => [{ strategy := "aria", selector := ac, nameMatch := some "contains" }]
          | none => [] }
  | none =>
    match buildDataAttrSelector target with
    | some dataSel => finalize dataSel "data" target
    | none => finalize (buildCompactCssSelector loc) "css" target

theorem strEmpty_append (s : String) : "" ++ s = s := by
  cases s with | mk d => rfl

theorem strEndsWith_self (s : String) : StrEndsWithP s s :=
  ⟨"", (strEmpty_append s).symm⟩

/-- C6: buildSelector's strategies are tried in a fixed priority order with
the first match winning. An element with a qualifying accessible role and
name gets strategy "aria" even when a test-id attribute is also present;
an element without a qualifying role/name but with a test-id attribute gets
strategy "data"; an element with neither — and with no stable id anchor,
no single stable class, and no stable attributes — gets strategy "css",
with a selector ending in a tag:nth-of-type(n) part. -/
theorem c6_selector_strategy_priority :
    (∀ (loc : Loc) (s : String), buildAriaSelector loc.node = some s →
      buildDataAttrSelector loc.node ≠ none →
      (buildSelector loc).strategy = "aria") ∧
    (∀ loc : Loc, buildAriaSelector loc.node = none →
      buildDataAttrSelector loc.node ≠ none →
      (buildSelector loc).strategy = "data") ∧
    (∀ (loc : Loc) (p : DomNode) (i : Nat) (rest : List (DomNode × Nat)),
      loc.anc = (p, i) :: rest →
      ancChainOk loc.node loc.anc = true →
      buildAriaSelector loc.node = none →
      buildDataAttrSelector loc.node = none →
      stableIdOf loc.node = none →
      pickStableClass loc.node (some p) = none →
      buildStableAttributeSelector loc.node = none →
      (buildSelector loc).strategy = "css" ∧
      ∃ k : Nat, StrEndsWithP (buildSelector loc).selector
        (jsToLower loc.node.tagNameD ++ ":nth-of-type(" ++ toString k ++ ")")) := by
  refine ⟨?_, ?_, ?_⟩
  · intro loc s hs _hd
    simp [buildSelector, hs, finalize]
  · intro loc ha hd
    cases hd' : buildDataAttrSelector loc.node with
    | none => exact absurd hd' hd
    | some ds => simp [buildSelector, ha, hd', finalize]
  · intro loc p i rest hanc _hwf ha hd hid hcls hattr
    have hpart : cssPart loc.node (some (p, i)) =
        jsToLower loc.node.tagNameD ++ ":nth-of-type(" ++
          toString (nthOfTypeIndex loc.node.tagNameD p.childrenD i) ++ ")" := by
      simp [cssPart, hid, cssPartNoId, hcls, hattr]
    have hsel : (buildSelector loc).selector = buildCompactCssSelector loc := by
      simp [buildSelector, ha, hd, finalize]
    refine ⟨by simp [buildSelector, ha, hd, finalize], ?_⟩
    refine ⟨nthOfTypeIndex loc.node.tagNameD p.childrenD i, ?_⟩
    rw [hsel]
    unfold buildCompactCssSelector
    rw [hanc]
    cases hsharp : jsStartsWith (cssPart loc.node (some (p, i))) "#" with
    | true =>
      have hparts : cssParts loc.node ((p, i) :: rest) = [cssPart loc.node (some (p, i))] := by
        simp [cssParts, hsharp]
      rw [hparts, hpart]
      simp only [joinSep]
      exact strEndsWith_self _
    | false =>
      have hparts : cssParts loc.node ((p, i) :: rest) =
          cssParts p rest ++ [cssPart loc.node (some (p, i))] := by
        simp [cssParts, hsharp]
      rw [hparts, hpart]
      exact joinSep_last _ _ _

/-- A button with both an accessible name and a test id. -/
def demoAriaButton : DomNode :=
  .elem "BUTTON" [("aria-label", "Submit"), ("data-testid", "send-btn")] []

/-- A div carrying only a test id. -/
def demoDataDiv : DomNode := .elem "DIV" [("data-testid", "panel")] []

/-- A span with no role/name, no test id, no id, no class, no stable
attributes. -/
def demoPlainSpan : DomNode := .elem "SPAN" [] [.textNode "hi"]

/-- The plain span's parent. -/
def demoParent : DomNode := .elem "DIV" [] [demoPlainSpan]

/-- Witness for C6: the three strategy scenarios at concrete elements. -/
theorem c6_witness_three_strategies :
    (buildAriaSelector demoAriaButton = some "role=button name=Submit" ∧
      buildDataAttrSelector demoAriaButton ≠ none ∧
      (buildSelector { node := demoAriaButton }).strategy = "aria") ∧
    (buildAriaSelector demoDataDiv = none ∧
      buildDataAttrSelector demoDataDiv ≠ none ∧
      (buildSelector { node := demoDataDiv }).strategy = "data") ∧
    ((buildSelector { node := demoPlainSpan, anc := [(demoParent, 0)] }).strategy = "css" ∧
      ∃ k : Nat, StrEndsWithP
        (buildSelector { node := demoPlainSpan, anc := [(demoParent, 0)] }).selector
        (jsToLower (DomNode.tagNameD demoPlainSpan) ++ ":nth-of-type(" ++ toString k ++ ")")) :=
  ⟨⟨by decide, by decide,
    c6_selector_strategy_priority.1 { node := demoAriaButton } "role=button name=Submit"
      (by decide) (by decide)⟩,
   ⟨by decide, by decide,
    c6_selector_strategy_priority.2.1 { node := demoDataDiv } (by decide) (by decide)⟩,
   c6_selector_strategy_priority.2.2 { node := demoPlainSpan, anc := [(demoParent, 0)] }
     demoParent 0 [] rfl (by decide) (by decide) (by decide) (by decide) (by decide) (by decide)⟩

end FRL
